import Mathlib

/-!
Verification of `src/arch/i386/transitions/librm_mgmt.c` (librm management:
stub placement, real-mode stack allocator, reference counter, lifecycle
hooks), as a shallow embedding.

Modelling notes, tied to the C source:
- Physical memory holding installed copies of the librm image is modelled as
  a map `mem_img : Nat → Image` from a physical base address to the image
  stored there.  An `Image` carries the stub payload bytes together with the
  embedded real-mode stack geometry fields (`rm_ss`/`rm_sp`), because the
  `inst_rm_stack` accessor in the C code refers to fields *inside* the
  installed copy, and `uninstall_librm`'s `memcpy` back to the master copy
  deliberately preserves those runtime-mutated fields.
- The raw byte region used by `copy_to_real`/`copy_from_real` for real-mode
  stack data is modelled separately as `rm_mem : Nat → Nat`, addressed by
  `segment * 16 + offset`; the source only touches it through those two
  external transfer functions.
- The external address translator (`virt_to_phys`/`phys_to_virt`) is a
  parameter `AddrMap`; claims that need the two to be mutually inverse take
  that as an explicit hypothesis, exactly as the spec does.
- Calls into the external low-memory allocator (`alloc_base_memory`,
  `free_base_memory`) are recorded in an event trace `events`, so that
  "performs exactly one allocation" and "never frees" are statable.  The
  address returned by `alloc_base_memory` is an input parameter of
  `librm_post_reloc`, since the allocator is external.
- `inst_librm_ref_count` is modelled as a plain natural-number field.
- The fatal `lockup()` paths (compiled in under `DEBUG_LIBRM`) are modelled
  by `Option`: `none` is the unrecoverable halt.
-/

namespace Librm

/-- The real-mode stack geometry fields embedded in the librm image:
a segment and a current offset within it. -/
structure RMStack where
  segment : Nat
  offset : Nat
deriving Repr, DecidableEq

/-- A copy of the librm image: its payload bytes (indexed from 0) together
with the embedded, runtime-mutated real-mode stack geometry fields. -/
structure Image where
  payload : Nat → Nat
  rm_stack : RMStack

/-- A call into the external low-memory allocator, as recorded in the
event trace: `alloc_base_memory` and `free_base_memory`. -/
inductive MemEvent where
  | alloc (addr size : Nat)
  | free (addr size : Nat)
deriving Repr, DecidableEq

/-- The external address translator: `virt_to_phys` and `phys_to_virt`.
The mapping may change across a relocation event, so operations take it as
a parameter. -/
structure AddrMap where
  virt_to_phys : Nat → Nat
  phys_to_virt : Nat → Nat

/-- The global state of `librm_mgmt.c`: the master copy `librm` (with its
size `librm_size`), the variables `installed_librm`, `librm_base`,
`allocated_librm` and `inst_librm_ref_count`, the low-memory contents, and
the allocator event trace. -/
structure LibrmState where
  librm_size : Nat
  librm : Image
  installed_librm : Nat
  librm_base : Nat
  allocated_librm : Bool
  mem_img : Nat → Image
  rm_mem : Nat → Nat
  inst_librm_ref_count : Nat
  events : List MemEvent

/-- The `inst_rm_stack` accessor: the stack geometry fields of the
currently installed copy, read through `installed_librm`. -/
def inst_rm_stack (am : AddrMap) (s : LibrmState) : RMStack :=
  (s.mem_img (am.virt_to_phys s.installed_librm)).rm_stack

/-- Writing the `inst_rm_stack` fields of the currently installed copy. -/
def set_inst_rm_stack (am : AddrMap) (st : RMStack) (s : LibrmState) : LibrmState :=
  let p := am.virt_to_phys s.installed_librm
  { s with mem_img := Function.update s.mem_img p { s.mem_img p with rm_stack := st } }

/-- `copy_to_real`: raw byte transfer of `data` to physical address `base`
(the segment:offset target linearised as `segment * 16 + offset`). -/
def writeBytes (m : Nat → Nat) (base : Nat) (data : List Nat) : Nat → Nat :=
  fun a => if base ≤ a ∧ a - base < data.length then data.getD (a - base) 0 else m a

/-- `copy_from_real`: raw byte transfer of `len` bytes starting at physical
address `base`. -/
def readBytes (m : Nat → Nat) (base len : Nat) : List Nat :=
  (List.range len).map fun i => m (base + i)

/-- `copy_to_rm_stack ( void *data, size_t size )`: decrement
`inst_rm_stack.offset` by the size, copy the data to the new
segment:offset location, return the new offset.  The `DEBUG_LIBRM` check
`inst_rm_stack.offset <= size` is the fatal exhaustion path (`none`). -/
def copy_to_rm_stack (am : AddrMap) (data : List Nat) (s : LibrmState) :
    Option (Nat × LibrmState) :=
  let st := inst_rm_stack am s
  if st.offset ≤ data.length then none
  else
    let newOff := st.offset - data.length
    let s1 := set_inst_rm_stack am { st with offset := newOff } s
    some (newOff,
      { s1 with rm_mem := writeBytes s1.rm_mem (st.segment * 16 + newOff) data })

/-- `remove_from_rm_stack ( void *data, size_t size )`: optionally copy
`size` bytes back from the current segment:offset location, then increment
`inst_rm_stack.offset` by the size. -/
def remove_from_rm_stack (am : AddrMap) (withData : Bool) (size : Nat)
    (s : LibrmState) : Option (List Nat) × LibrmState :=
  let st := inst_rm_stack am s
  let out := if withData
    then some (readBytes s.rm_mem (st.segment * 16 + st.offset) size)
    else none
  (out, set_inst_rm_stack am { st with offset := st.offset + size } s)

/-- `install_librm ( char *addr )`: set `librm_base` to the physical form
of `addr`, copy the master image there, and record `addr` as
`installed_librm`.  No effect on `allocated_librm`. -/
def install_librm (am : AddrMap) (addr : Nat) (s : LibrmState) : LibrmState :=
  { s with
    librm_base := am.virt_to_phys addr,
    mem_img := Function.update s.mem_img (am.virt_to_phys addr) s.librm,
    installed_librm := addr }

/-- `uninstall_librm ( void )`: copy the installed copy back to the master
copy (preserving its runtime-mutated fields), then, only if
`allocated_librm`, call `free_base_memory` and clear `allocated_librm`.
The low-memory contents are left intact. -/
def uninstall_librm (am : AddrMap) (s : LibrmState) : LibrmState :=
  let s1 := { s with librm := s.mem_img (am.virt_to_phys s.installed_librm) }
  if s.allocated_librm then
    { s1 with
      events := s1.events ++ [MemEvent.free s.installed_librm s.librm_size],
      allocated_librm := false }
  else s1

/-- `librm_init ( void )`: if `librm_base` is zero, install at the fixed
fallback address `phys_to_virt ( 0x7c00 )` and initialise the real-mode
stack to segment `0x7c0`, offset `0x1000`; otherwise do nothing. -/
def librm_init (am : AddrMap) (s : LibrmState) : LibrmState :=
  if s.librm_base = 0 then
    set_inst_rm_stack am { segment := 0x7c0, offset := 0x1000 }
      (install_librm am (am.phys_to_virt 0x7c00) s)
  else s

/-- `librm_post_reloc ( void )`: re-point `installed_librm` at the last
known physical location, then, if not `allocated_librm`, allocate base
memory of size `librm_size` (the allocator's returned address is the
parameter `new_librm`), uninstall, install at the new address, and set
`allocated_librm`. -/
def librm_post_reloc (am : AddrMap) (new_librm : Nat) (s : LibrmState) : LibrmState :=
  let s1 := { s with installed_librm := am.phys_to_virt s.librm_base }
  if s1.allocated_librm then s1
  else
    let s2 := { s1 with
      events := s1.events ++ [MemEvent.alloc new_librm s1.librm_size] }
    let s3 := uninstall_librm am s2
    let s4 := install_librm am new_librm s3
    { s4 with allocated_librm := true }

/-- The segment registers of `struct i386_all_regs` that the code touches. -/
structure SegRegs where
  es : Nat
deriving Repr, DecidableEq

/-- The register file handed to `initialise_via_librm`. -/
structure I386AllRegs where
  segs : SegRegs
deriving Repr, DecidableEq

/-- `initialise_via_librm ( struct i386_all_regs *ix86 )`: after handing
off to the external `initialise ()`, point `es` at the new librm by
storing `librm_base >> 4`. -/
def initialise_via_librm (s : LibrmState) (ix86 : I386AllRegs) : I386AllRegs :=
  { ix86 with segs := { ix86.segs with es := s.librm_base >>> 4 } }

/-- `lock_librm ( void )`: increment the reference count. -/
def lock_librm (s : LibrmState) : LibrmState :=
  { s with inst_librm_ref_count := s.inst_librm_ref_count + 1 }

/-- `unlock_librm ( void )`: decrement the reference count; the
`DEBUG_LIBRM` check makes a decrement of zero the fatal underflow path
(`none`). -/
def unlock_librm (s : LibrmState) : Option LibrmState :=
  if s.inst_librm_ref_count = 0 then none
  else some { s with inst_librm_ref_count := s.inst_librm_ref_count - 1 }

/-! Helper lemmas. -/

/-- Reading the stack fields right after writing them gives them back:
`set_inst_rm_stack` does not move `installed_librm`. -/
theorem inst_rm_stack_set (am : AddrMap) (st : RMStack) (s : LibrmState) :
    inst_rm_stack am (set_inst_rm_stack am st s) = st := by
  simp [inst_rm_stack, set_inst_rm_stack]

/-- Round trip through raw real-mode memory: reading back the region just
written by `writeBytes` yields the written data. -/
theorem readBytes_writeBytes (m : Nat → Nat) (base : Nat) (data : List Nat) :
    readBytes (writeBytes m base data) base data.length = data := by
  apply List.ext_getElem
  · simp [readBytes]
  · intro i h1 h2
    simp only [readBytes, writeBytes, List.getElem_map, List.getElem_range]
    rw [if_pos]
    · simp only [Nat.add_sub_cancel_left]
      exact List.getD_eq_getElem data 0 h2
    · constructor
      · exact Nat.le_add_right base i
      · simpa [Nat.add_sub_cancel_left] using h2

/-- Unfolding of a successful `copy_to_rm_stack`: size strictly below the
current offset, the offset is decremented by the size, the data lands at
the new segment:offset location, and the new offset is the token. -/
theorem copy_to_rm_stack_some (am : AddrMap) (data : List Nat) (s : LibrmState)
    (h : data.length < (inst_rm_stack am s).offset) :
    copy_to_rm_stack am data s =
      some ((inst_rm_stack am s).offset - data.length,
        { set_inst_rm_stack am
            { inst_rm_stack am s with
              offset := (inst_rm_stack am s).offset - data.length } s with
          rm_mem := writeBytes s.rm_mem
            ((inst_rm_stack am s).segment * 16 +
              ((inst_rm_stack am s).offset - data.length)) data }) := by
  rw [copy_to_rm_stack, if_neg (by omega)]
  rfl

/-! Concrete data for witnesses. -/

/-- The identity address map: linear and physical addresses coincide (the
flat mapping in place before relocation changes anything). -/
def idMap : AddrMap := { virt_to_phys := fun a => a, phys_to_virt := fun a => a }

/-- A concrete librm image. -/
def image0 : Image :=
  { payload := fun _ => 0, rm_stack := { segment := 0x7c0, offset := 0x1000 } }

/-- A concrete state: stub installed at `0x7c00` under the identity map,
stack at `07c0:1000`, nothing allocated, reference count zero. -/
def state0 : LibrmState :=
  { librm_size := 4
    librm := image0
    installed_librm := 0x7c00
    librm_base := 0x7c00
    allocated_librm := false
    mem_img := fun _ => image0
    rm_mem := fun _ => 0
    inst_librm_ref_count := 0
    events := [] }

/-! Claims about the real-mode stack allocator. -/

/-- Claim C5: a push via `copy_to_rm_stack` hits the fatal
resource-exhaustion path exactly when the size is at least the current
offset; otherwise it succeeds, decreases the offset by exactly the size,
copies the data to the new segment:offset location, and returns the new
offset as the token. -/
theorem claim_c5_push_exhaustion (am : AddrMap) (data : List Nat) (s : LibrmState) :
    (copy_to_rm_stack am data s = none ↔
      (inst_rm_stack am s).offset ≤ data.length) ∧
    (data.length < (inst_rm_stack am s).offset →
      ∃ s', copy_to_rm_stack am data s =
          some ((inst_rm_stack am s).offset - data.length, s') ∧
        (inst_rm_stack am s').offset =
          (inst_rm_stack am s).offset - data.length ∧
        (inst_rm_stack am s').segment = (inst_rm_stack am s).segment ∧
        readBytes s'.rm_mem
          ((inst_rm_stack am s).segment * 16 +
            ((inst_rm_stack am s).offset - data.length)) data.length = data) := by
  constructor
  · rw [copy_to_rm_stack]
    split
    · simp; omega
    · simp; omega
  · intro h
    refine ⟨_, copy_to_rm_stack_some am data s h, ?_, ?_, ?_⟩
    · simp [inst_rm_stack, set_inst_rm_stack]
    · simp [inst_rm_stack, set_inst_rm_stack]
    · exact readBytes_writeBytes s.rm_mem _ data

/-- Witness for C5 at a concrete input: a push of one byte on `state0`. -/
theorem claim_c5_push_exhaustion_witness :
    (copy_to_rm_stack idMap [7] state0 = none ↔
      (inst_rm_stack idMap state0).offset ≤ 1) ∧
    ((1 : Nat) < (inst_rm_stack idMap state0).offset →
      ∃ s', copy_to_rm_stack idMap [7] state0 =
          some ((inst_rm_stack idMap state0).offset - 1, s') ∧
        (inst_rm_stack idMap s').offset = (inst_rm_stack idMap state0).offset - 1 ∧
        (inst_rm_stack idMap s').segment = (inst_rm_stack idMap state0).segment ∧
        readBytes s'.rm_mem
          ((inst_rm_stack idMap state0).segment * 16 +
            ((inst_rm_stack idMap state0).offset - 1)) 1 = [7]) :=
  claim_c5_push_exhaustion idMap [7] state0

/-- Claim C6: pushing a byte sequence and immediately popping the same
length with an output buffer yields exactly the pushed bytes. -/
theorem claim_c6_push_pop (am : AddrMap) (data : List Nat) (s : LibrmState)
    (h : data.length < (inst_rm_stack am s).offset) :
    ∃ t s', copy_to_rm_stack am data s = some (t, s') ∧
      (remove_from_rm_stack am true data.length s').1 = some data := by
  refine ⟨_, _, copy_to_rm_stack_some am data s h, ?_⟩
  simp only [remove_from_rm_stack, inst_rm_stack, set_inst_rm_stack,
    Function.update_same, if_pos]
  exact congrArg some (readBytes_writeBytes s.rm_mem _ data)

/-- Witness for C6 at a concrete input: pushing `[1, 2, 3]` on `state0`
and popping three bytes returns `[1, 2, 3]`. -/
theorem claim_c6_push_pop_witness :
    [1, 2, 3].length < (inst_rm_stack idMap state0).offset ∧
    ∃ t s', copy_to_rm_stack idMap [1, 2, 3] state0 = some (t, s') ∧
      (remove_from_rm_stack idMap true [1, 2, 3].length s').1 = some [1, 2, 3] :=
  ⟨by decide, claim_c6_push_pop idMap [1, 2, 3] state0 (by decide)⟩

/-- A sequence of pushes with no intervening pops: thread the state through
`copy_to_rm_stack` for each datum, failing if any push fails. -/
def push_all (am : AddrMap) (datas : List (List Nat)) (s : LibrmState) :
    Option LibrmState :=
  match datas with
  | [] => some s
  | d :: rest =>
    match copy_to_rm_stack am d s with
    | none => none
    | some (_, s1) => push_all am rest s1

/-- A sequence of pops of the given sizes via `remove_from_rm_stack`. -/
def pop_all (am : AddrMap) (sizes : List Nat) (s : LibrmState) : LibrmState :=
  match sizes with
  | [] => s
  | n :: rest => pop_all am rest (remove_from_rm_stack am true n s).2

/-- One pop adds its size to the offset and keeps the segment. -/
theorem inst_rm_stack_remove (am : AddrMap) (withData : Bool) (n : Nat)
    (s : LibrmState) :
    inst_rm_stack am ((remove_from_rm_stack am withData n s).2) =
      { inst_rm_stack am s with offset := (inst_rm_stack am s).offset + n } := by
  simp [remove_from_rm_stack, inst_rm_stack_set]

/-- Popping a list of sizes adds their sum to the offset and keeps the
segment. -/
theorem inst_rm_stack_pop_all (am : AddrMap) (sizes : List Nat) (s : LibrmState) :
    inst_rm_stack am (pop_all am sizes s) =
      { inst_rm_stack am s with
        offset := (inst_rm_stack am s).offset + sizes.sum } := by
  induction sizes generalizing s with
  | nil => simp [pop_all]
  | cons n rest ih =>
    rw [pop_all, ih, inst_rm_stack_remove]
    simp [Nat.add_assoc]

/-- One successful push subtracts its size from the offset (which it was
strictly below) and keeps the segment. -/
theorem inst_rm_stack_push (am : AddrMap) (d : List Nat) (s : LibrmState)
    (t : Nat) (s1 : LibrmState) (h : copy_to_rm_stack am d s = some (t, s1)) :
    d.length < (inst_rm_stack am s).offset ∧
      inst_rm_stack am s1 =
        { inst_rm_stack am s with
          offset := (inst_rm_stack am s).offset - d.length } := by
  rw [copy_to_rm_stack] at h
  split at h
  · exact absurd h (by simp)
  · refine ⟨by omega, ?_⟩
    obtain ⟨-, h2⟩ := Prod.mk.injEq .. ▸ Option.some.injEq .. ▸ h
    rw [← h2]
    simp [inst_rm_stack, set_inst_rm_stack]

/-- Successful pushes subtract the sum of their sizes from the offset and
keep the segment; stated additively to avoid truncated subtraction. -/
theorem inst_rm_stack_push_all (am : AddrMap) (datas : List (List Nat))
    (s s' : LibrmState) (h : push_all am datas s = some s') :
    (inst_rm_stack am s').offset + (datas.map List.length).sum =
        (inst_rm_stack am s).offset ∧
      (inst_rm_stack am s').segment = (inst_rm_stack am s).segment := by
  induction datas generalizing s with
  | nil =>
    rw [push_all] at h
    obtain rfl := Option.some.injEq .. ▸ h
    simp
  | cons d rest ih =>
    rw [push_all] at h
    split at h
    · exact absurd h (by simp)
    · rename_i t s1 heq
      obtain ⟨hlt, hst⟩ := inst_rm_stack_push am d s t s1 heq
      obtain ⟨ih1, ih2⟩ := ih s1 h
      rw [hst] at ih1 ih2
      simp only [List.map_cons, List.sum_cons] at *
      constructor
      · omega
      · exact ih2

/-- Claim C7: after successful pushes of sizes s1..sN with no intervening
pops, the stack offset has decreased by exactly the sum of the sizes, and
popping the sizes in strict reverse order restores the original offset. -/
theorem claim_c7_offset_monotonicity (am : AddrMap) (datas : List (List Nat))
    (s s' : LibrmState) (h : push_all am datas s = some s') :
    (inst_rm_stack am s').offset =
        (inst_rm_stack am s).offset - (datas.map List.length).sum ∧
      (datas.map List.length).sum ≤ (inst_rm_stack am s).offset ∧
      (inst_rm_stack am
          (pop_all am (datas.map List.length).reverse s')).offset =
        (inst_rm_stack am s).offset := by
  obtain ⟨h1, -⟩ := inst_rm_stack_push_all am datas s s' h
  refine ⟨by omega, by omega, ?_⟩
  rw [inst_rm_stack_pop_all]
  simp only [List.sum_reverse]
  omega

/-- Witness for C7 at a concrete input: pushing `[1, 2]` and `[3]` on
`state0` and popping sizes `1, 2` in reverse order. -/
theorem claim_c7_offset_monotonicity_witness :
    (∃ s', push_all idMap [[1, 2], [3]] state0 = some s' ∧
      (inst_rm_stack idMap s').offset =
          (inst_rm_stack idMap state0).offset -
            ([[1, 2], [3]].map List.length).sum ∧
        ([[1, 2], [3]].map List.length).sum ≤ (inst_rm_stack idMap state0).offset ∧
        (inst_rm_stack idMap
            (pop_all idMap ([[1, 2], [3]].map List.length).reverse s')).offset =
          (inst_rm_stack idMap state0).offset) := by
  refine ⟨(push_all idMap [[1, 2], [3]] state0).get (by decide), ?_, ?_⟩
  · rfl
  · exact claim_c7_offset_monotonicity idMap [[1, 2], [3]] state0 _ rfl

/-! Claims about the reference counter. -/

/-- A call into the reference counter: `lock_librm` or `unlock_librm`. -/
inductive RefOp where
  | acq
  | rel
deriving Repr, DecidableEq

/-- Number of `lock_librm` calls in a sequence. -/
def acqs : List RefOp → Nat
  | [] => 0
  | RefOp.acq :: rest => acqs rest + 1
  | RefOp.rel :: rest => acqs rest

/-- Number of `unlock_librm` calls in a sequence. -/
def rels : List RefOp → Nat
  | [] => 0
  | RefOp.acq :: rest => rels rest
  | RefOp.rel :: rest => rels rest + 1

/-- Run a sequence of reference-counter calls, halting fatally (`none`) as
soon as `unlock_librm` underflows. -/
def run_ref_ops (ops : List RefOp) (s : LibrmState) : Option LibrmState :=
  match ops with
  | [] => some s
  | RefOp.acq :: rest => run_ref_ops rest (lock_librm s)
  | RefOp.rel :: rest =>
    match unlock_librm s with
    | none => none
    | some s1 => run_ref_ops rest s1

/-- Decides that, starting from count `n`, no initial segment of the call
sequence performs more releases than acquires plus `n`. -/
def no_rel_excess : List RefOp → Nat → Bool
  | [], _ => true
  | RefOp.acq :: rest, n => no_rel_excess rest (n + 1)
  | RefOp.rel :: rest, n => if n = 0 then false else no_rel_excess rest (n - 1)

/-- Running a sequence with no release excess never hits the fatal path and
changes only the reference count, by the net of acquires over releases. -/
theorem run_ref_ops_no_rel_excess (ops : List RefOp) (s : LibrmState)
    (h : no_rel_excess ops s.inst_librm_ref_count = true) :
    run_ref_ops ops s =
      some { s with inst_librm_ref_count :=
        s.inst_librm_ref_count + acqs ops - rels ops } := by
  induction ops generalizing s with
  | nil => simp [run_ref_ops, acqs, rels]
  | cons op rest ih =>
    cases op with
    | acq =>
      rw [run_ref_ops, ih (lock_librm s) (by exact h)]
      rw [acqs, rels]
      congr 1
      simp only [lock_librm]
      congr 1
      omega
    | rel =>
      rw [no_rel_excess] at h
      have hn : s.inst_librm_ref_count ≠ 0 := by
        intro h0
        rw [if_pos h0] at h
        exact Bool.false_ne_true h
      rw [if_neg hn] at h
      have hu : unlock_librm s =
          some { s with inst_librm_ref_count := s.inst_librm_ref_count - 1 } := by
        rw [unlock_librm, if_neg hn]
      rw [run_ref_ops, hu]
      refine Eq.trans (ih _ h) ?_
      rw [acqs, rels]
      congr 2
      show s.inst_librm_ref_count - 1 + acqs rest - rels rest =
        s.inst_librm_ref_count + acqs rest - (rels rest + 1)
      omega

/-- Claim C8: from a zero reference count, a sequence with equally many
acquires and releases in which no initial segment has more releases than
acquires runs without hitting the fatal path and returns the state (in
particular the count) to exactly what it was; and a release at count zero
is the fatal underflow path. -/
theorem claim_c8_refcount_balance (ops : List RefOp) (s : LibrmState)
    (h0 : s.inst_librm_ref_count = 0)
    (hbal : acqs ops = rels ops)
    (hpre : no_rel_excess ops 0 = true) :
    run_ref_ops ops s = some s ∧ unlock_librm s = none := by
  constructor
  · rw [run_ref_ops_no_rel_excess ops s (by rw [h0]; exact hpre)]
    rw [hbal, Nat.add_sub_cancel]
  · rw [unlock_librm, if_pos h0]

/-- Witness for C8 at a concrete input: the sequence acquire, acquire,
release, release on `state0`. -/
theorem claim_c8_refcount_balance_witness :
    state0.inst_librm_ref_count = 0 ∧
    acqs [RefOp.acq, RefOp.acq, RefOp.rel, RefOp.rel] =
      rels [RefOp.acq, RefOp.acq, RefOp.rel, RefOp.rel] ∧
    no_rel_excess [RefOp.acq, RefOp.acq, RefOp.rel, RefOp.rel] 0 = true ∧
    (run_ref_ops [RefOp.acq, RefOp.acq, RefOp.rel, RefOp.rel] state0 =
        some state0 ∧
      unlock_librm state0 = none) :=
  ⟨rfl, by decide, by decide,
    claim_c8_refcount_balance [RefOp.acq, RefOp.acq, RefOp.rel, RefOp.rel]
      state0 rfl (by decide) (by decide)⟩

/-! Claims about the stub placement manager. -/

/-- Unfolding of `librm_post_reloc` when nothing is allocated yet: it is
exactly the composition re-derive, allocate, uninstall, install, mark
allocated. -/
theorem librm_post_reloc_eq (am : AddrMap) (n : Nat) (s : LibrmState)
    (h : s.allocated_librm = false) :
    librm_post_reloc am n s =
      { install_librm am n
          (uninstall_librm am
            { s with
              installed_librm := am.phys_to_virt s.librm_base,
              events := s.events ++ [MemEvent.alloc n s.librm_size] })
        with allocated_librm := true } := by
  simp only [librm_post_reloc, h, Bool.false_eq_true, if_false]

/-- Unfolding of `librm_post_reloc` when already allocated: only
`installed_librm` is re-derived from `librm_base`. -/
theorem librm_post_reloc_allocated (am : AddrMap) (n : Nat) (s : LibrmState)
    (h : s.allocated_librm = true) :
    librm_post_reloc am n s =
      { s with installed_librm := am.phys_to_virt s.librm_base } := by
  simp only [librm_post_reloc, h, if_true]

/-- Claim C3: `uninstall_librm` copies the installed copy (with its
runtime-mutated stack-geometry fields, which the `Image` carries) back into
the master copy; it emits a `free_base_memory` call and clears
`allocated_librm` exactly when `allocated_librm` was set, and emits no free
otherwise; and it leaves the low-memory contents (both the image region and
the raw real-mode bytes) intact. -/
theorem claim_c3_uninstall_flush (am : AddrMap) (s : LibrmState) :
    (uninstall_librm am s).librm =
        s.mem_img (am.virt_to_phys s.installed_librm) ∧
    (uninstall_librm am s).allocated_librm = false ∧
    (uninstall_librm am s).events =
        (if s.allocated_librm
          then s.events ++ [MemEvent.free s.installed_librm s.librm_size]
          else s.events) ∧
    (uninstall_librm am s).mem_img = s.mem_img ∧
    (uninstall_librm am s).rm_mem = s.rm_mem := by
  rw [uninstall_librm]
  split <;> simp_all

/-- Claim C1: with no allocation yet, `librm_post_reloc` re-derives
`installed_librm` from the last known physical location `librm_base`,
records one allocation of size `librm_size`, uninstalls (which frees
nothing here), installs at the newly allocated region, and sets
`allocated_librm`; it equals exactly that composition, and its allocator
trace grows by exactly the one allocation event. -/
theorem claim_c1_post_reloc_steps (am : AddrMap) (n : Nat) (s : LibrmState)
    (h : s.allocated_librm = false) :
    librm_post_reloc am n s =
      { install_librm am n
          (uninstall_librm am
            { s with
              installed_librm := am.phys_to_virt s.librm_base,
              events := s.events ++ [MemEvent.alloc n s.librm_size] })
        with allocated_librm := true } ∧
    (librm_post_reloc am n s).events =
      s.events ++ [MemEvent.alloc n s.librm_size] := by
  refine ⟨librm_post_reloc_eq am n s h, ?_⟩
  rw [librm_post_reloc_eq am n s h]
  simp [install_librm, uninstall_librm, h]

/-- Witness for C1 at a concrete input: `state0` is unallocated, and a
post-relocation migration to `0x9000` behaves as claimed. -/
theorem claim_c1_post_reloc_steps_witness :
    state0.allocated_librm = false ∧
    (librm_post_reloc idMap 0x9000 state0 =
        { install_librm idMap 0x9000
            (uninstall_librm idMap
              { state0 with
                installed_librm := idMap.phys_to_virt state0.librm_base,
                events := state0.events ++
                  [MemEvent.alloc 0x9000 state0.librm_size] })
          with allocated_librm := true } ∧
      (librm_post_reloc idMap 0x9000 state0).events =
        state0.events ++ [MemEvent.alloc 0x9000 state0.librm_size]) :=
  ⟨rfl, claim_c1_post_reloc_steps idMap 0x9000 state0 rfl⟩

/-- Claim C2: from an unallocated state, running `librm_post_reloc` twice
with no relocation in between (so `phys_to_virt` still inverts
`virt_to_phys`) performs exactly one allocation and no free, and the second
call leaves the state exactly as the first call left it. -/
theorem claim_c2_migration_idem (am : AddrMap) (n n2 : Nat) (s : LibrmState)
    (h : s.allocated_librm = false)
    (hinv : ∀ v, am.phys_to_virt (am.virt_to_phys v) = v) :
    librm_post_reloc am n2 (librm_post_reloc am n s) =
        librm_post_reloc am n s ∧
      (librm_post_reloc am n s).events =
        s.events ++ [MemEvent.alloc n s.librm_size] := by
  obtain ⟨s1, hs1⟩ : ∃ s1, librm_post_reloc am n s = s1 := ⟨_, rfl⟩
  have hform := (librm_post_reloc_eq am n s h).symm.trans hs1
  have halloc : s1.allocated_librm = true := by rw [← hform]
  have hbase : s1.librm_base = am.virt_to_phys n := by rw [← hform]; rfl
  have hinst : s1.installed_librm = n := by rw [← hform]; rfl
  rw [hs1]
  constructor
  · have key : am.phys_to_virt s1.librm_base = s1.installed_librm := by
      rw [hbase, hinv n]
      exact hinst.symm
    rw [librm_post_reloc_allocated am n2 s1 halloc, key]
  · rw [← hform]
    simp [install_librm, uninstall_librm, h]

/-- Witness for C2 at a concrete input: migrating `state0` twice, to
`0x9000` and then (vacuously) `0x8000`, under the identity map. -/
theorem claim_c2_migration_idem_witness :
    state0.allocated_librm = false ∧
    (∀ v, idMap.phys_to_virt (idMap.virt_to_phys v) = v) ∧
    (librm_post_reloc idMap 0x8000 (librm_post_reloc idMap 0x9000 state0) =
        librm_post_reloc idMap 0x9000 state0 ∧
      (librm_post_reloc idMap 0x9000 state0).events =
        state0.events ++ [MemEvent.alloc 0x9000 state0.librm_size]) :=
  ⟨rfl, fun _ => rfl,
    claim_c2_migration_idem idMap 0x9000 0x8000 state0 rfl fun _ => rfl⟩

/-- Claim C4: `librm_init` installs at the fixed fallback address
`phys_to_virt 0x7c00` and sets the real-mode stack to `07c0:1000` when no
physical location is known (`librm_base = 0`), does nothing when one is
known, and a second call changes nothing further. -/
theorem claim_c4_bootstrap_idem (am : AddrMap) (s : LibrmState) :
    (s.librm_base = 0 →
      librm_init am s =
        set_inst_rm_stack am { segment := 0x7c0, offset := 0x1000 }
          (install_librm am (am.phys_to_virt 0x7c00) s)) ∧
    (s.librm_base ≠ 0 → librm_init am s = s) ∧
    librm_init am (librm_init am s) = librm_init am s := by
  refine ⟨fun h => by rw [librm_init, if_pos h], fun h => by rw [librm_init, if_neg h], ?_⟩
  by_cases hb : s.librm_base = 0
  · have h1 : librm_init am s =
        set_inst_rm_stack am { segment := 0x7c0, offset := 0x1000 }
          (install_librm am (am.phys_to_virt 0x7c00) s) := by
      rw [librm_init, if_pos hb]
    rw [h1, librm_init]
    split
    · simp [set_inst_rm_stack, install_librm, Function.update_idem,
        Function.update_same]
    · rfl
  · have h1 : librm_init am s = s := by rw [librm_init, if_neg hb]
    rw [h1, h1]

/-- Witness for C4 at a concrete input: a state with `librm_base = 0`. -/
theorem claim_c4_bootstrap_idem_witness :
    ({ state0 with librm_base := 0 }.librm_base = 0 →
      librm_init idMap { state0 with librm_base := 0 } =
        set_inst_rm_stack idMap { segment := 0x7c0, offset := 0x1000 }
          (install_librm idMap (idMap.phys_to_virt 0x7c00)
            { state0 with librm_base := 0 })) ∧
    ({ state0 with librm_base := 0 }.librm_base ≠ 0 →
      librm_init idMap { state0 with librm_base := 0 } =
        { state0 with librm_base := 0 }) ∧
    librm_init idMap (librm_init idMap { state0 with librm_base := 0 }) =
      librm_init idMap { state0 with librm_base := 0 } :=
  claim_c4_bootstrap_idem idMap { state0 with librm_base := 0 }

/-- Claim C9: `initialise_via_librm` writes to `es` exactly the segment
value of the installed stub, namely `librm_base >> 4`, which for the
natural-number physical base equals `librm_base / 16`. -/
theorem claim_c9_es_segment (s : LibrmState) (ix86 : I386AllRegs) :
    (initialise_via_librm s ix86).segs.es = s.librm_base >>> 4 ∧
    (initialise_via_librm s ix86).segs.es = s.librm_base / 16 := by
  have hdiv : s.librm_base >>> 4 = s.librm_base / 16 := by
    rw [Nat.shiftRight_eq_div_pow]
  exact ⟨rfl, hdiv⟩

/-- The implicit consistency invariant of C10: the recorded physical base
is the physical form of the recorded linear installed location. -/
def base_matches_installed (am : AddrMap) (s : LibrmState) : Prop :=
  s.librm_base = am.virt_to_phys s.installed_librm

/-- Claim C10: `install_librm` establishes the base/installed-location
consistency invariant; `uninstall_librm` leaves both records unchanged
(hence preserves it); and `librm_post_reloc` re-establishes it, given that
`virt_to_phys` inverts `phys_to_virt` (mutual inverses). -/
theorem claim_c10_base_consistency (am : AddrMap) (addr n : Nat)
    (s : LibrmState) :
    base_matches_installed am (install_librm am addr s) ∧
    ((uninstall_librm am s).librm_base = s.librm_base ∧
      (uninstall_librm am s).installed_librm = s.installed_librm) ∧
    (base_matches_installed am s →
      base_matches_installed am (uninstall_librm am s)) ∧
    ((∀ p, am.virt_to_phys (am.phys_to_virt p) = p) →
      base_matches_installed am (librm_post_reloc am n s)) := by
  have huni : (uninstall_librm am s).librm_base = s.librm_base ∧
      (uninstall_librm am s).installed_librm = s.installed_librm := by
    rw [uninstall_librm]
    split <;> exact ⟨rfl, rfl⟩
  refine ⟨rfl, huni, ?_, ?_⟩
  · intro hs
    rw [base_matches_installed, huni.1, huni.2]
    exact hs
  · intro hinv
    by_cases ha : s.allocated_librm = true
    · rw [librm_post_reloc_allocated am n s ha]
      exact (hinv s.librm_base).symm
    · rw [librm_post_reloc_eq am n s (Bool.not_eq_true _ ▸ ha)]
      rfl

/-- Witness for C10 at a concrete input: `state0` under the identity map,
with installation at `0x5000` and migration to `0x9000`. -/
theorem claim_c10_base_consistency_witness :
    base_matches_installed idMap (install_librm idMap 0x5000 state0) ∧
    ((uninstall_librm idMap state0).librm_base = state0.librm_base ∧
      (uninstall_librm idMap state0).installed_librm =
        state0.installed_librm) ∧
    (base_matches_installed idMap state0 →
      base_matches_installed idMap (uninstall_librm idMap state0)) ∧
    ((∀ p, idMap.virt_to_phys (idMap.phys_to_virt p) = p) →
      base_matches_installed idMap (librm_post_reloc idMap 0x9000 state0)) :=
  claim_c10_base_consistency idMap 0x5000 0x9000 state0

end Librm
